import Mathlib

/-!
Verification development for the numexpr bytecode virtual machine core
(`src/numexpr/interpreter.cpp`).

The development shallowly embeds the parts of the interpreter that the
claims refer to: the program validator `check_program`, the reduction-axis
decoder `get_reduction_axis`, the fixed-width string comparison
`stringcmp`, the parallel-engine setup/rollback of
`vm_engine_iter_parallel`, the block-interpreter error skeleton, the
driver/partition geometry of the parallel engine, and the relevant control
flow of `NumExpr_run`.

Programs are byte lists (`List Nat`, each entry a byte value), register
type signatures are byte lists of ASCII type codes, and machine integers
are `Nat`/`Int`.
-/

namespace NumexprVM

/-! ### Opcode table

Modelled from the spec: `opcodes.hpp` (included by the source via macro
expansion) is not under `src/`.  The spec describes the table's shape: each
opcode carries a return type and up to three argument type codes drawn from
b,i,l,f,d,c,s,n; a function-call family carries a function-table index as
its final `n` argument; reduction opcodes form the final range of the
table, with the sum family `[OP_SUM, OP_PROD)` preceding the product
family.  We fix a small concrete instantiation with this shape. -/

/-- ASCII code of type char b. -/
def tB : Nat := 98
/-- ASCII code of type char i. -/
def tI : Nat := 105
/-- ASCII code of type char l. -/
def tL : Nat := 108
/-- ASCII code of type char f. -/
def tF : Nat := 102
/-- ASCII code of type char d. -/
def tD : Nat := 100
/-- ASCII code of type char c. -/
def tC : Nat := 99
/-- ASCII code of type char s. -/
def tS : Nat := 115
/-- ASCII code of type char n (untyped function-table index argument). -/
def tN : Nat := 110

/-- Modelled from the spec: the no-operation opcode. -/
def OP_NOOP : Nat := 0
/-- Modelled from the spec: an element-wise double addition opcode. -/
def OP_ADD_DDD : Nat := 1
/-- Modelled from the spec: 1-arg float function dispatch opcode. -/
def OP_FUNC_FFN : Nat := 2
/-- Modelled from the spec: 2-arg float function dispatch opcode. -/
def OP_FUNC_FFFN : Nat := 3
/-- Modelled from the spec: 1-arg double function dispatch opcode. -/
def OP_FUNC_DDN : Nat := 4
/-- Modelled from the spec: 2-arg double function dispatch opcode. -/
def OP_FUNC_DDDN : Nat := 5
/-- Modelled from the spec: 1-arg complex function dispatch opcode. -/
def OP_FUNC_CCN : Nat := 6
/-- Modelled from the spec: 2-arg complex function dispatch opcode. -/
def OP_FUNC_CCCN : Nat := 7
/-- Modelled from the spec: start of the reduction opcode range. -/
def OP_REDUCTION : Nat := 8
/-- Modelled from the spec: first sum-family reduction opcode. -/
def OP_SUM : Nat := 9
/-- Modelled from the spec: first product-family reduction opcode
(the sum family is `[OP_SUM, OP_PROD)`). -/
def OP_PROD : Nat := 12
/-- Modelled from the spec: the last opcode of the table. -/
def OP_END : Nat := 14

/-- Modelled from the spec: the per-opcode signature table
(`op_signature_table` rows `{rt, a1, a2, a3}`, entry 0 meaning "no more
arguments"). -/
def sig_table : List (List Nat) :=
  [[0, 0, 0, 0],           -- OP_NOOP
   [tD, tD, tD, 0],        -- OP_ADD_DDD
   [tF, tF, tN, 0],        -- OP_FUNC_FFN
   [tF, tF, tF, tN],       -- OP_FUNC_FFFN
   [tD, tD, tN, 0],        -- OP_FUNC_DDN
   [tD, tD, tD, tN],       -- OP_FUNC_DDDN
   [tC, tC, tN, 0],        -- OP_FUNC_CCN
   [tC, tC, tC, tN],       -- OP_FUNC_CCCN
   [0, 0, 0, 0],           -- OP_REDUCTION (marker)
   [tD, tD, tN, 0],        -- OP_SUM (double sum)
   [tL, tL, tN, 0],        -- sum over long
   [tC, tC, tN, 0],        -- sum over complex
   [tD, tD, tN, 0],        -- OP_PROD (double product)
   [tL, tL, tN, 0],        -- product over long
   [tC, tC, tN, 0]]        -- product over complex

/-- Modelled from the spec: length of the 1-arg float function table. -/
def FUNC_FF_LAST : Nat := 3
/-- Modelled from the spec: length of the 2-arg float function table. -/
def FUNC_FFF_LAST : Nat := 2
/-- Modelled from the spec: length of the 1-arg double function table. -/
def FUNC_DD_LAST : Nat := 4
/-- Modelled from the spec: length of the 2-arg double function table. -/
def FUNC_DDD_LAST : Nat := 2
/-- Modelled from the spec: length of the 1-arg complex function table. -/
def FUNC_CC_LAST : Nat := 5
/-- Modelled from the spec: length of the 2-arg complex function table. -/
def FUNC_CCC_LAST : Nat := 1

/-- `op_signature` from interpreter.cpp: signature entry `n` of opcode
`op`; 0 when there are no more entries, -1 when the opcode is out of the
table (the C `op < 0` case cannot arise for a byte read as unsigned). -/
def op_signature (op n : Nat) : Int :=
  if 4 ≤ n then 0
  else if OP_END < op then -1
  else ((sig_table.getD op []).getD n 0 : Nat)

/-! ### The program validator, `check_program` -/

/-- Rejection reasons of `check_program`, one per `PyErr_Format` site. -/
inductive CheckErr where
  | progLenMod4
  | tooManyBuffers
  | reductionNotLast (pc : Nat)
  | illegalOpcode (pc : Nat)
  | doubleOpcodeAtEnd (pc : Nat)
  | bufferOutOfRange (arg : Nat) (argloc : Nat)
  | funccodeOutOfRange (arg : Nat) (argloc : Nat)
  | internalCheckerError (argloc : Nat)
  | signatureMismatch (argloc : Nat)
  deriving DecidableEq, Repr

/-- Operand byte location for argument `argno` of the instruction at
`pc` (interpreter.cpp lines 356-365): operand bytes 1..3 of the slot for
the first three arguments, byte 1 past the slot for a fourth argument. -/
def arg_loc (pc argno : Nat) : Nat :=
  if argno < 3 then pc + argno + 1 else pc + argno + 2

/-- One argument check of `check_program` (lines 356-418): a register
argument must be below the buffer count and match the register's declared
type (with i and l interchangeable); an `n` argument of a function
dispatch opcode must be below its table length; an `n` argument of a
reduction opcode is not checked. -/
def check_arg (program fullsig : List Nat) (op pc argno : Nat) (sig : Nat) :
    Except CheckErr Unit :=
  if 3 ≤ argno ∧ program.length ≤ pc + 1 then .error (.doubleOpcodeAtEnd pc)
  else
    let argloc := arg_loc pc argno
    let arg := program.getD argloc 0
    if sig ≠ tN ∧ fullsig.length ≤ arg then .error (.bufferOutOfRange arg argloc)
    else if sig = tN then
      if op = OP_FUNC_FFN then
        if FUNC_FF_LAST ≤ arg then .error (.funccodeOutOfRange arg argloc) else .ok ()
      else if op = OP_FUNC_FFFN then
        if FUNC_FFF_LAST ≤ arg then .error (.funccodeOutOfRange arg argloc) else .ok ()
      else if op = OP_FUNC_DDN then
        if FUNC_DD_LAST ≤ arg then .error (.funccodeOutOfRange arg argloc) else .ok ()
      else if op = OP_FUNC_DDDN then
        if FUNC_DDD_LAST ≤ arg then .error (.funccodeOutOfRange arg argloc) else .ok ()
      else if op = OP_FUNC_CCN then
        if FUNC_CC_LAST ≤ arg then .error (.funccodeOutOfRange arg argloc) else .ok ()
      else if op = OP_FUNC_CCCN then
        if FUNC_CCC_LAST ≤ arg then .error (.funccodeOutOfRange arg argloc) else .ok ()
      else if OP_REDUCTION ≤ op then .ok ()
      else .error (.internalCheckerError argloc)
    else if (sig = tL ∧ fullsig.getD arg 0 = tI) ∨ (sig = tI ∧ fullsig.getD arg 0 = tL) then
      .ok ()
    else if sig ≠ fullsig.getD arg 0 then .error (.signatureMismatch argloc)
    else .ok ()

/-- The inner argument loop of `check_program` (lines 349-419): walk the
signature entries of `op` until the terminator; entry -1 means an illegal
opcode.  The fuel bounds the loop; `op_signature` returns 0 from entry 4
on, so fuel 5 is exact. -/
def check_argsGo (program fullsig : List Nat) (op pc : Nat) :
    Nat → Nat → Except CheckErr Unit
  | _, 0 => .ok ()
  | argno, fuel + 1 =>
    let s := op_signature op argno
    if s = -1 then .error (.illegalOpcode pc)
    else if s = 0 then .ok ()
    else
      match check_arg program fullsig op pc argno s.toNat with
      | .error e => .error e
      | .ok _ => check_argsGo program fullsig op pc (argno + 1) fuel

/-- One iteration of the `check_program` main loop (lines 339-419): skip
no-ops, reject a reduction-range opcode that is not the final instruction,
then check the arguments. -/
def check_instr (program fullsig : List Nat) (pc : Nat) : Except CheckErr Unit :=
  let op := program.getD pc 0
  if op = OP_NOOP then .ok ()
  else if OP_REDUCTION ≤ op ∧ pc ≠ program.length - 4 then .error (.reductionNotLast pc)
  else check_argsGo program fullsig op pc 0 5

/-- The `check_program` main loop over program counters 0, 4, 8, ... -/
def check_loopGo (program fullsig : List Nat) : Nat → Nat → Except CheckErr Unit
  | _, 0 => .ok ()
  | pc, fuel + 1 =>
    if program.length ≤ pc then .ok ()
    else
      match check_instr program fullsig pc with
      | .error e => .error e
      | .ok _ => check_loopGo program fullsig (pc + 4) fuel

/-- `check_program` (interpreter.cpp lines 308-422): validate the whole
program against the full register signature.  The string-read failures of
the C version cannot arise here; the input-only signature is read by the C
code but not consulted by any check. -/
def check_program (program fullsig : List Nat) : Except CheckErr Unit :=
  if program.length % 4 ≠ 0 then .error .progLenMod4
  else if 255 < fullsig.length then .error .tooManyBuffers
  else check_loopGo program fullsig 0 (program.length / 4 + 1)

example : check_program [9, 0, 1, 0] [tD, tD] = .ok () := rfl
example : check_program [9, 0, 1, 0, 1, 0, 1, 0] [tD, tD] =
    .error (.reductionNotLast 0) := rfl
example : check_program [1, 200, 0, 0, 9, 0, 1, 0, 1, 0, 0, 0] [tD, tD, tD] =
    .error (.bufferOutOfRange 200 1) := rfl
example : check_program [2, 0, 1, 2] [tF, tF] = .ok () := rfl
example : check_program [2, 0, 1, 3] [tF, tF] = .error (.funccodeOutOfRange 3 3) := rfl

instance : DecidableEq (Except CheckErr Unit) := fun a b =>
  match a, b with
  | .ok (), .ok () => isTrue rfl
  | .ok (), .error _ => isFalse (fun h => Except.noConfusion h)
  | .error _, .ok () => isFalse (fun h => Except.noConfusion h)
  | .error e1, .error e2 =>
    match decEq e1 e2 with
    | isTrue h => isTrue (by rw [h])
    | isFalse h => isFalse (fun hh => h (by injection hh))

/-! ### C4: the reduction-position invariant -/

/-- A reduction-range opcode at a non-final slot makes `check_instr` fail
with the reduction-position error (lines 344-348 fire before the argument
checks of that instruction). -/
lemma check_instr_at_reduction (program fullsig : List Nat) (pc : Nat)
    (hred : OP_REDUCTION ≤ program.getD pc 0)
    (hne : pc ≠ program.length - 4) :
    check_instr program fullsig pc = .error (.reductionNotLast pc) := by
  unfold check_instr
  have hnoop : ¬ program.getD pc 0 = OP_NOOP := by
    simp only [OP_REDUCTION] at hred
    simp only [OP_NOOP]
    omega
  rw [if_neg hnoop, if_pos ⟨hred, hne⟩]

/-- The validator loop cannot succeed once a non-final reduction-range
instruction lies ahead of it. -/
lemma check_loopGo_red_ne_ok (program fullsig : List Nat) (pc : Nat)
    (hlen : pc + 4 ≤ program.length)
    (hne : pc ≠ program.length - 4)
    (hred : OP_REDUCTION ≤ program.getD pc 0) :
    ∀ fuel pc0, pc0 % 4 = 0 → pc % 4 = 0 → pc0 ≤ pc → pc + 4 ≤ pc0 + 4 * fuel →
      check_loopGo program fullsig pc0 fuel ≠ .ok () := by
  intro fuel
  induction fuel with
  | zero => intro pc0 _ _ h1 h2; omega
  | succ n ih =>
    intro pc0 h0 hp4 h1 h2
    rw [check_loopGo]
    have hnl : ¬ program.length ≤ pc0 := by omega
    rw [if_neg hnl]
    by_cases hp : pc0 = pc
    · subst hp
      rw [check_instr_at_reduction program fullsig pc0 hred hne]
      intro h
      exact Except.noConfusion h
    · cases h : check_instr program fullsig pc0 with
      | error e => intro hh; exact Except.noConfusion hh
      | ok u =>
        exact ih (pc0 + 4) (by omega) hp4 (by omega) (by omega)

/-- When every instruction before `pc` validates, the loop reports the
reduction-position error at exactly `pc`. -/
lemma check_loopGo_red_exact (program fullsig : List Nat) (pc : Nat)
    (hlen : pc + 4 ≤ program.length)
    (hne : pc ≠ program.length - 4)
    (hred : OP_REDUCTION ≤ program.getD pc 0)
    (hpref : ∀ pc', pc' < pc → pc' % 4 = 0 → check_instr program fullsig pc' = .ok ()) :
    ∀ fuel pc0, pc0 % 4 = 0 → pc % 4 = 0 → pc0 ≤ pc → pc + 4 ≤ pc0 + 4 * fuel →
      check_loopGo program fullsig pc0 fuel = .error (.reductionNotLast pc) := by
  intro fuel
  induction fuel with
  | zero => intro pc0 _ _ h1 h2; omega
  | succ n ih =>
    intro pc0 h0 hp4 h1 h2
    rw [check_loopGo]
    have hnl : ¬ program.length ≤ pc0 := by omega
    rw [if_neg hnl]
    by_cases hp : pc0 = pc
    · subst hp
      rw [check_instr_at_reduction program fullsig pc0 hred hne]
    · rw [hpref pc0 (by omega) h0]
      exact ih (pc0 + 4) (by omega) hp4 (by omega) (by omega)

/-- C4 (amended): a program with a non-noop reduction-range opcode at a
4-byte slot other than the final one is always rejected by
`check_program`; when, additionally, the program length is well formed,
the buffer count is within range and every earlier aligned instruction
passes its own checks, the rejection is precisely the
"reduction operations must occur last" error at that slot.  A program
whose single reduction opcode is the final instruction passes the check. -/
theorem reduction_position_invariant :
    (∀ (program fullsig : List Nat) (pc : Nat),
      pc % 4 = 0 → pc + 4 ≤ program.length → pc ≠ program.length - 4 →
      OP_REDUCTION ≤ program.getD pc 0 →
      check_program program fullsig ≠ .ok () ∧
        (program.length % 4 = 0 → fullsig.length ≤ 255 →
         (∀ pc', pc' < pc → pc' % 4 = 0 → check_instr program fullsig pc' = .ok ()) →
         check_program program fullsig = .error (.reductionNotLast pc))) ∧
    check_program [9, 0, 1, 0] [tD, tD] = .ok () := by
  constructor
  · intro program fullsig pc hpc4 hlen hne hred
    constructor
    · unfold check_program
      by_cases hmod : program.length % 4 ≠ 0
      · rw [if_pos hmod]; intro h; exact Except.noConfusion h
      · rw [if_neg hmod]
        by_cases hbuf : 255 < fullsig.length
        · rw [if_pos hbuf]; intro h; exact Except.noConfusion h
        · rw [if_neg hbuf]
          refine check_loopGo_red_ne_ok program fullsig pc hlen hne hred _ 0 (by omega) hpc4
            (by omega) ?_
          omega
    · intro hmod hbuf hpref
      unfold check_program
      rw [if_neg (by omega), if_neg (by omega)]
      exact check_loopGo_red_exact program fullsig pc hlen hne hred hpref _ 0 (by omega)
        hpc4 (by omega) (by omega)
  · rfl

/-- C4 (counterexample): a program whose second slot holds a reduction
opcode (9) at a non-final position is rejected, but with the
buffer-out-of-range error of its first instruction, not the
"reduction operations must occur last" error the claim names. -/
theorem reduction_not_last_error_preempted :
    check_program [1, 200, 0, 0, 9, 0, 1, 0, 1, 0, 0, 0] [tD, tD, tD] =
      .error (.bufferOutOfRange 200 1) ∧
    OP_REDUCTION ≤ ([1, 200, 0, 0, 9, 0, 1, 0, 1, 0, 0, 0] : List Nat).getD 4 0 ∧
    (4 : Nat) ≠ ([1, 200, 0, 0, 9, 0, 1, 0, 1, 0, 0, 0] : List Nat).length - 4 ∧
    check_program [1, 200, 0, 0, 9, 0, 1, 0, 1, 0, 0, 0] [tD, tD, tD] ≠
      .error (.reductionNotLast 4) := by
  refine ⟨rfl, by decide, by decide, ?_⟩
  intro h
  have : CheckErr.bufferOutOfRange 200 1 = CheckErr.reductionNotLast 4 := by
    have h0 : check_program [1, 200, 0, 0, 9, 0, 1, 0, 1, 0, 0, 0] [tD, tD, tD] =
        .error (.bufferOutOfRange 200 1) := rfl
    rw [h0] at h
    injection h
  exact CheckErr.noConfusion this

/-- C4 (witness): the amended theorem applied to a concrete program whose
first instruction is a reduction opcode in a non-final slot. -/
theorem reduction_position_invariant_witness :
    check_program [9, 0, 1, 0, 1, 0, 1, 0] [tD, tD] = .error (.reductionNotLast 0) :=
  (reduction_position_invariant.1 [9, 0, 1, 0, 1, 0, 1, 0] [tD, tD] 0
      (by decide) (by decide) (by decide) (by decide)).2
    (by decide) (by decide) (fun pc' h _ => absurd h (Nat.not_lt_zero pc'))

/-! ### C8: function-table index bounds -/

/-- C8: for each of the six function-dispatch families, a single-dispatch
program's validation succeeds exactly when the function-table index byte
is below that family's table length, and fails with the funccode
out-of-range error otherwise; in particular index = length is rejected and
index = length - 1 accepted. -/
theorem funccode_bounds :
    ∀ k : Nat, k < 256 →
      (check_program [2, 0, 1, k] [tF, tF] =
        if k < FUNC_FF_LAST then .ok () else .error (.funccodeOutOfRange k 3)) ∧
      (check_program [3, 0, 1, 1, 0, k, 0, 0] [tF, tF] =
        if k < FUNC_FFF_LAST then .ok () else .error (.funccodeOutOfRange k 5)) ∧
      (check_program [4, 0, 1, k] [tD, tD] =
        if k < FUNC_DD_LAST then .ok () else .error (.funccodeOutOfRange k 3)) ∧
      (check_program [5, 0, 1, 1, 0, k, 0, 0] [tD, tD] =
        if k < FUNC_DDD_LAST then .ok () else .error (.funccodeOutOfRange k 5)) ∧
      (check_program [6, 0, 1, k] [tC, tC] =
        if k < FUNC_CC_LAST then .ok () else .error (.funccodeOutOfRange k 3)) ∧
      (check_program [7, 0, 1, 1, 0, k, 0, 0] [tC, tC] =
        if k < FUNC_CCC_LAST then .ok () else .error (.funccodeOutOfRange k 5)) := by
  set_option maxRecDepth 100000 in decide

/-- C8 (witness): each family at index = table length (rejected) and at
index = table length - 1 (accepted). -/
theorem funccode_bounds_witness :
    (check_program [2, 0, 1, 3] [tF, tF] = .error (.funccodeOutOfRange 3 3)) ∧
    (check_program [2, 0, 1, 2] [tF, tF] = .ok ()) ∧
    (check_program [3, 0, 1, 1, 0, 2, 0, 0] [tF, tF] = .error (.funccodeOutOfRange 2 5)) ∧
    (check_program [3, 0, 1, 1, 0, 1, 0, 0] [tF, tF] = .ok ()) ∧
    (check_program [4, 0, 1, 4] [tD, tD] = .error (.funccodeOutOfRange 4 3)) ∧
    (check_program [4, 0, 1, 3] [tD, tD] = .ok ()) ∧
    (check_program [5, 0, 1, 1, 0, 2, 0, 0] [tD, tD] = .error (.funccodeOutOfRange 2 5)) ∧
    (check_program [5, 0, 1, 1, 0, 1, 0, 0] [tD, tD] = .ok ()) ∧
    (check_program [6, 0, 1, 5] [tC, tC] = .error (.funccodeOutOfRange 5 3)) ∧
    (check_program [6, 0, 1, 4] [tC, tC] = .ok ()) ∧
    (check_program [7, 0, 1, 1, 0, 1, 0, 0] [tC, tC] = .error (.funccodeOutOfRange 1 5)) ∧
    (check_program [7, 0, 1, 1, 0, 0, 0, 0] [tC, tC] = .ok ()) :=
  ⟨(funccode_bounds 3 (by decide)).1,
   (funccode_bounds 2 (by decide)).1,
   (funccode_bounds 2 (by decide)).2.1,
   (funccode_bounds 1 (by decide)).2.1,
   (funccode_bounds 4 (by decide)).2.2.1,
   (funccode_bounds 3 (by decide)).2.2.1,
   (funccode_bounds 2 (by decide)).2.2.2.1,
   (funccode_bounds 1 (by decide)).2.2.2.1,
   (funccode_bounds 5 (by decide)).2.2.2.2.1,
   (funccode_bounds 4 (by decide)).2.2.2.2.1,
   (funccode_bounds 1 (by decide)).2.2.2.2.2,
   (funccode_bounds 0 (by decide)).2.2.2.2.2⟩

/-! ### C6: reduction-axis decoding -/

/-- Modelled from the spec: `MAX_DIMS`, the fixed dimension cap, comes
from headers not under `src/`; it is the host array library's dimension
bound (32). -/
def MAX_DIMS : Nat := 32

/-- `get_reduction_axis` (interpreter.cpp lines 297-304): read the last
byte of the program; 255 and values below `MAX_DIMS` pass through, any
other value `v` becomes `MAX_DIMS - v` (in C `int` arithmetic, hence the
`Int` result). -/
def get_reduction_axis (program : List Nat) : Int :=
  let axis := program.getD (program.length - 1) 0
  if axis ≠ 255 ∧ MAX_DIMS ≤ axis then (MAX_DIMS : Int) - axis else (axis : Int)

/-- C6: the last program byte decodes to the reduction axis: the sentinel
255 is returned unchanged, values below `MAX_DIMS` are returned
unchanged, and any other value `v` is interpreted as `MAX_DIMS - v`. -/
theorem reduction_axis_decoding :
    ∀ (program : List Nat) (b : Nat), program.getD (program.length - 1) 0 = b →
      (b = 255 → get_reduction_axis program = 255) ∧
      (b < MAX_DIMS → get_reduction_axis program = b) ∧
      (b ≠ 255 → MAX_DIMS ≤ b → get_reduction_axis program = (MAX_DIMS : Int) - b) := by
  intro program b hb
  unfold get_reduction_axis
  simp only [hb]
  refine ⟨?_, ?_, ?_⟩
  · intro h
    rw [if_neg (by simp [h])]
    rw [h]
    norm_num
  · intro h
    rw [if_neg (by simp only [MAX_DIMS] at *; omega)]
  · intro h1 h2
    rw [if_pos ⟨h1, h2⟩]

/-- C6 (witness): last byte 200 decodes to 32 - 200 = -168, last byte 255
and 3 pass through. -/
theorem reduction_axis_decoding_witness :
    get_reduction_axis [9, 0, 1, 200] = (32 : Int) - 200 ∧
    get_reduction_axis [9, 0, 1, 255] = 255 ∧
    get_reduction_axis [9, 0, 1, 3] = 3 :=
  ⟨(reduction_axis_decoding [9, 0, 1, 200] 200 rfl).2.2 (by decide) (by decide),
   (reduction_axis_decoding [9, 0, 1, 255] 255 rfl).1 rfl,
   (reduction_axis_decoding [9, 0, 1, 3] 3 rfl).2.1 (by decide)⟩

/-! ### C7: fixed-width string comparison -/

/-- The position walk of `stringcmp` (interpreter.cpp lines 449-467):
compare byte `i` of each operand (entries are signed `char` values, hence
`Int`), where a pointer that has run past its declared width reads the
simulated trailing NUL; recurse until `max maxlen1 maxlen2` positions are
exhausted.  The fuel is the number of positions left. -/
def scmpGo (s1 s2 : List Int) (m1 m2 : Nat) : Nat → Nat → Int
  | _, 0 => 0
  | i, fuel + 1 =>
    let c1 := if i < m1 then s1.getD i 0 else 0
    let c2 := if i < m2 then s2.getD i 0 else 0
    if c1 < c2 then -1 else if c2 < c1 then 1 else scmpGo s1 s2 m1 m2 (i + 1) fuel

/-- `stringcmp` from interpreter.cpp: fixed-width comparison of `s1`
(declared width `m1`) and `s2` (declared width `m2`). -/
def stringcmp (s1 s2 : List Int) (m1 m2 : Nat) : Int :=
  scmpGo s1 s2 m1 m2 0 (max m1 m2)

/-- Pad a fixed-width string with trailing NUL bytes up to width `w`
(the spec's description of the comparison's padding). -/
def padTo (s : List Int) (w : Nat) : List Int :=
  s ++ List.replicate (w - s.length) 0

/-- Plain lexicographic byte compare of two equal-length byte lists:
-1 or +1 at the first differing byte, 0 on exhaustion (the spec's
description of the comparison order). -/
def lexByteCmp : List Int → List Int → Int
  | [], _ => 0
  | _ :: _, [] => 0
  | a :: as, b :: bs => if a < b then -1 else if b < a then 1 else lexByteCmp as bs

/-- The comparison the spec describes: pad both strings to the longer
declared width, then compare lexicographically. -/
def stringcmp_spec (s1 s2 : List Int) (w1 w2 : Nat) : Int :=
  lexByteCmp (padTo s1 (max w1 w2)) (padTo s2 (max w1 w2))

lemma replicate_getD_zero (n i : Nat) : (List.replicate n (0 : Int)).getD i 0 = 0 := by
  induction n generalizing i with
  | zero => rfl
  | succ n ih =>
    cases i with
    | zero => rfl
    | succ i => simp [List.replicate]

lemma padTo_getD (s : List Int) (w i : Nat) (_hw : s.length ≤ w) :
    (padTo s w).getD i 0 = if i < s.length then s.getD i 0 else 0 := by
  unfold padTo
  by_cases hi : i < s.length
  · rw [if_pos hi, List.getD_append _ _ _ _ hi]
  · rw [if_neg hi, List.getD_append_right _ _ _ _ (by omega), replicate_getD_zero]

lemma padTo_length (s : List Int) (w : Nat) (hw : s.length ≤ w) :
    (padTo s w).length = w := by
  simp [padTo]
  omega

lemma scmpGo_eq_lex (s1 s2 : List Int) (m1 m2 : Nat)
    (h1 : s1.length = m1) (h2 : s2.length = m2) :
    ∀ fuel i, i + fuel = max m1 m2 →
      scmpGo s1 s2 m1 m2 i fuel =
        lexByteCmp ((padTo s1 (max m1 m2)).drop i) ((padTo s2 (max m1 m2)).drop i) := by
  intro fuel
  induction fuel with
  | zero =>
    intro i hi
    rw [List.drop_eq_nil_of_le, List.drop_eq_nil_of_le]
    · rfl
    · rw [padTo_length s2 _ (by omega)]; omega
    · rw [padTo_length s1 _ (by omega)]; omega
  | succ fuel ih =>
    intro i hi
    have hlt : i < max m1 m2 := by omega
    have hd1 : (padTo s1 (max m1 m2)).drop i =
        (padTo s1 (max m1 m2)).getD i 0 :: (padTo s1 (max m1 m2)).drop (i + 1) := by
      rw [List.getD_eq_getElem _ _ (by rw [padTo_length s1 _ (by omega)]; omega)]
      exact List.drop_eq_getElem_cons (by rw [padTo_length s1 _ (by omega)]; omega)
    have hd2 : (padTo s2 (max m1 m2)).drop i =
        (padTo s2 (max m1 m2)).getD i 0 :: (padTo s2 (max m1 m2)).drop (i + 1) := by
      rw [List.getD_eq_getElem _ _ (by rw [padTo_length s2 _ (by omega)]; omega)]
      exact List.drop_eq_getElem_cons (by rw [padTo_length s2 _ (by omega)]; omega)
    rw [hd1, hd2, scmpGo, lexByteCmp]
    rw [padTo_getD s1 _ i (by omega), padTo_getD s2 _ i (by omega), h1, h2]
    by_cases hc1 : (if i < m1 then s1.getD i 0 else 0) < (if i < m2 then s2.getD i 0 else 0)
    · rw [if_pos hc1, if_pos hc1]
    · rw [if_neg hc1, if_neg hc1]
      by_cases hc2 : (if i < m2 then s2.getD i 0 else 0) < (if i < m1 then s1.getD i 0 else 0)
      · rw [if_pos hc2, if_pos hc2]
      · rw [if_neg hc2, if_neg hc2]
        exact ih (i + 1) (by omega)

/-- C7: `stringcmp` compares as if the shorter string were padded with
trailing NUL bytes up to the longer declared width, byte-by-byte with
-1/+1 at the first difference and 0 when all `max w1 w2` positions are
exhausted; in particular widths-2/3 "ab" vs "abc" yields -1. -/
theorem stringcmp_padded_lex :
    (∀ (s1 s2 : List Int) (w1 w2 : Nat), s1.length = w1 → s2.length = w2 →
      stringcmp s1 s2 w1 w2 = stringcmp_spec s1 s2 w1 w2) ∧
    stringcmp [97, 98] [97, 98, 99] 2 3 = -1 := by
  constructor
  · intro s1 s2 w1 w2 h1 h2
    unfold stringcmp stringcmp_spec
    simpa using scmpGo_eq_lex s1 s2 w1 w2 h1 h2 (max w1 w2) 0 (by omega)
  · rfl

/-- C7 (witness): the refinement applied to the concrete "ab" / "abc"
comparison of the spec. -/
theorem stringcmp_padded_lex_witness :
    stringcmp [97, 98] [97, 98, 99] 2 3 = stringcmp_spec [97, 98] [97, 98, 99] 2 3 :=
  stringcmp_padded_lex.1 [97, 98] [97, 98, 99] 2 3 rfl rfl

/-! ### C3: block-interpreter error statuses

The dispatch skeleton of one interpreter pass.  The per-opcode value
computation lives in `interp_body.cpp`, which is not under `src/`;
modelled from the spec, the skeleton walks the instructions, bounds-checks
every register operand, and treats an opcode outside the table as the
switch default.  The bounds check itself is the `BOUNDS_CHECK` macro of
interpreter.cpp lines 440-447: an argument `≥ params.r_end` records the
program counter in `pc_error` and aborts with status -2; the switch
default records the program counter and aborts with status -3.

The statuses do not, however, reach the status mapping of `NumExpr_run`:
`run_interpreter` passes the engine's status through lines 795-797 (which
raise a generic RuntimeError only when an error message was recorded —
the -2 and -3 aborts record none) and then returns 0 unconditionally at line
799, so the value `NumExpr_run` maps at lines 1295-1311 is never -2 or
-3.  `run_interpreter_tail` below embeds that exit. -/

/-- Result of running the block interpreter's dispatch over a block:
success, or a negative status with the failing program counter. -/
inductive BlockResult where
  | ok
  | fault (status : Int) (pc : Nat)
  deriving DecidableEq, Repr

/-- Modelled from the spec: the operand bounds checks of one
`interp_body.cpp` case (the file is not under `src/`) — check the
register operands of the instruction at `pc` (signature entries that are
neither the terminator nor the untyped `n` code) in argument order, with
the `BOUNDS_CHECK` abort of interpreter.cpp lines 440-447. -/
def vm_argGo (r_end : Nat) (program : List Nat) (op pc : Nat) : Nat → Nat → BlockResult
  | _, 0 => .ok
  | argno, fuel + 1 =>
    let s := op_signature op argno
    if s = 0 then .ok
    else if s = (tN : Int) then vm_argGo r_end program op pc (argno + 1) fuel
    else
      let arg := program.getD (arg_loc pc argno) 0
      if r_end ≤ arg then .fault (-2) pc
      else vm_argGo r_end program op pc (argno + 1) fuel

/-- Modelled from the spec: the opcode switch of `interp_body.cpp` (not
under `src/`) — skip no-ops, fall into the switch default with status -3
for an opcode outside the table, otherwise bounds-check the register
operands. -/
def vm_instr (r_end : Nat) (program : List Nat) (pc : Nat) : BlockResult :=
  let op := program.getD pc 0
  if op = OP_NOOP then .ok
  else if OP_END < op then .fault (-3) pc
  else vm_argGo r_end program op pc 0 5

/-- The instruction loop of one block pass. -/
def vm_blockGo (r_end : Nat) (program : List Nat) : Nat → Nat → BlockResult
  | _, 0 => .ok
  | pc, fuel + 1 =>
    if program.length ≤ pc then .ok
    else
      match vm_instr r_end program pc with
      | .fault s p => .fault s p
      | .ok => vm_blockGo r_end program (pc + 4) fuel

/-- One block pass of the interpreter's dispatch skeleton. -/
def vm_block (r_end : Nat) (program : List Nat) : BlockResult :=
  vm_blockGo r_end program 0 (program.length / 4 + 1)

/-- Error classes of `NumExpr_run`'s status mapping. -/
inductive PyError where
  | runtimeGeneric
  | badArgument (pc : Int)
  | badOpcode (pc : Int)
  | unknownError
  deriving DecidableEq, Repr

/-- The status mapping of `NumExpr_run` (interpreter.cpp lines
1295-1311): negative status -1 is the generic runtime failure, -2 the
bad-argument error carrying `pc_error`, -3 the bad-opcode error carrying
`pc_error`, anything else negative the unknown error.  In `NumExpr_run`
the mapped value `r` is the return value of `run_interpreter`, which is
only ever 0 or -1 — see `run_interpreter_tail` and
`NumExpr_run_reported_error` below. -/
def NumExpr_run_error_report (r pc_error : Int) : Option PyError :=
  if 0 ≤ r then none
  else if r = -1 then some .runtimeGeneric
  else if r = -2 then some (.badArgument pc_error)
  else if r = -3 then some (.badOpcode pc_error)
  else some .unknownError

/-- What `run_interpreter` hands back to `NumExpr_run`: its return value
and whether a RuntimeError was raised from a recorded error message. -/
structure RunInterpreterOutcome where
  ret : Int
  runtimeErrorSet : Bool
  deriving DecidableEq, Repr

/-- The exit of `run_interpreter` (interpreter.cpp lines 795-799) for an
engine status `r`: raise the generic RuntimeError when `r` is negative
and an error message was recorded (`errmsgSet`; the -2 and -3 block aborts
record none), then return 0 unconditionally — the status itself is
discarded.  The function's other returns (-1 at lines 695, 720, 737 and
763) precede engine execution and concern external-service failures. -/
def run_interpreter_tail (r : Int) (errmsgSet : Bool) : RunInterpreterOutcome :=
  ⟨0, decide (r < 0) && errmsgSet⟩

/-- The error `NumExpr_run` actually reports for an engine status: the
mapping of lines 1295-1311 applied to `run_interpreter`'s return
value. -/
def NumExpr_run_reported_error (taskStatus : Int) (errmsgSet : Bool) (pc_error : Int) :
    Option PyError :=
  NumExpr_run_error_report (run_interpreter_tail taskStatus errmsgSet).ret pc_error

lemma vm_argGo_oob (r_end : Nat) (program : List Nat) (op pc j : Nat)
    (hj : j < 4)
    (hsig : op_signature op j ≠ 0)
    (hsigN : op_signature op j ≠ (tN : Int))
    (hpre : ∀ m, m < j → op_signature op m ≠ 0 ∧
      (op_signature op m = (tN : Int) ∨ program.getD (arg_loc pc m) 0 < r_end))
    (harg : r_end ≤ program.getD (arg_loc pc j) 0) :
    ∀ fuel argno, argno ≤ j → j + 1 ≤ argno + fuel →
      vm_argGo r_end program op pc argno fuel = .fault (-2) pc := by
  intro fuel
  induction fuel with
  | zero => intro argno h1 h2; omega
  | succ n ih =>
    intro argno h1 h2
    rw [vm_argGo]
    by_cases hja : argno = j
    · subst hja
      rw [if_neg hsig, if_neg hsigN, if_pos harg]
    · have hlt : argno < j := by omega
      obtain ⟨hm0, hmN⟩ := hpre argno hlt
      rw [if_neg hm0]
      rcases hmN with hN | hincr
      · rw [if_pos hN]
        exact ih (argno + 1) (by omega) (by omega)
      · by_cases hN : op_signature op argno = (tN : Int)
        · rw [if_pos hN]
          exact ih (argno + 1) (by omega) (by omega)
        · rw [if_neg hN, if_neg (by omega)]
          exact ih (argno + 1) (by omega) (by omega)

lemma vm_instr_oob (r_end : Nat) (program : List Nat) (pc j : Nat)
    (hop_ne : program.getD pc 0 ≠ OP_NOOP)
    (hop_le : program.getD pc 0 ≤ OP_END)
    (hj : j < 4)
    (hsig : op_signature (program.getD pc 0) j ≠ 0)
    (hsigN : op_signature (program.getD pc 0) j ≠ (tN : Int))
    (hpre : ∀ m, m < j → op_signature (program.getD pc 0) m ≠ 0 ∧
      (op_signature (program.getD pc 0) m = (tN : Int) ∨
        program.getD (arg_loc pc m) 0 < r_end))
    (harg : r_end ≤ program.getD (arg_loc pc j) 0) :
    vm_instr r_end program pc = .fault (-2) pc := by
  unfold vm_instr
  rw [if_neg hop_ne, if_neg (by omega)]
  exact vm_argGo_oob r_end program _ pc j hj hsig hsigN hpre harg 5 0 (by omega) (by omega)

lemma vm_instr_badop (r_end : Nat) (program : List Nat) (pc : Nat)
    (h : OP_END < program.getD pc 0) :
    vm_instr r_end program pc = .fault (-3) pc := by
  unfold vm_instr
  have hne : ¬ program.getD pc 0 = OP_NOOP := by
    simp only [OP_END] at h
    simp only [OP_NOOP]
    omega
  rw [if_neg hne, if_pos h]

lemma vm_block_first_fault (r_end : Nat) (program : List Nat) (pc : Nat) (s : Int) (p : Nat)
    (hlt : pc < program.length) (hpc4 : pc % 4 = 0)
    (hpref : ∀ pc', pc' < pc → pc' % 4 = 0 → vm_instr r_end program pc' = .ok)
    (hf : vm_instr r_end program pc = .fault s p) :
    vm_block r_end program = .fault s p := by
  have aux : ∀ fuel pc0, pc0 % 4 = 0 → pc0 ≤ pc → pc < pc0 + 4 * fuel →
      vm_blockGo r_end program pc0 fuel = .fault s p := by
    intro fuel
    induction fuel with
    | zero => intro pc0 _ h1 h2; omega
    | succ n ih =>
      intro pc0 h0 h1 h2
      rw [vm_blockGo]
      rw [if_neg (by omega)]
      by_cases hp : pc0 = pc
      · subst hp
        rw [hf]
      · rw [hpref pc0 (by omega) h0]
        exact ih (pc0 + 4) (by omega) (by omega) (by omega)
  exact aux (program.length / 4 + 1) 0 (by omega) (by omega) (by omega)

/-- C3 (code bug): evaluated at the failing input, the block interpreter
does abort with status -2 (register operand 5 against bound 1, program
counter 4 recorded) and with status -3 for an invalid opcode (byte 255,
program counter 4 recorded), and the mapping branches of `NumExpr_run`
do turn -2 into the bad-argument error and -3 into the bad-opcode error
at that program counter — but `run_interpreter` returns 0 for every
engine status, the -2 and -3 aborts record no error message so not even the
generic RuntimeError is raised, and the error `NumExpr_run` actually
reports for a faulting block is none: the claimed status-to-error
propagation never happens, and the mapping branches are dead code. -/
theorem run_interpreter_swallows_block_status :
    vm_block 1 [0, 0, 0, 0, 1, 5, 0, 0] = .fault (-2) 4 ∧
    vm_block 1 [0, 0, 0, 0, 255, 0, 0, 0] = .fault (-3) 4 ∧
    (∀ pce : Int,
      NumExpr_run_error_report (-2) pce = some (.badArgument pce) ∧
      NumExpr_run_error_report (-3) pce = some (.badOpcode pce)) ∧
    (∀ (r : Int) (errmsgSet : Bool), (run_interpreter_tail r errmsgSet).ret = 0) ∧
    (run_interpreter_tail (-2) false).runtimeErrorSet = false ∧
    (run_interpreter_tail (-3) false).runtimeErrorSet = false ∧
    (∀ (errmsgSet : Bool) (pce : Int),
      NumExpr_run_reported_error (-2) errmsgSet pce = none ∧
      NumExpr_run_reported_error (-3) errmsgSet pce = none) := by
  refine ⟨rfl, rfl, ?_, ?_, rfl, rfl, ?_⟩
  · intro pce
    exact ⟨rfl, rfl⟩
  · intro r errmsgSet
    rfl
  · intro errmsgSet pce
    exact ⟨rfl, rfl⟩

/-! ### C2: parallel-engine setup and rollback

The clone-setup phase of `vm_engine_iter_parallel` (interpreter.cpp lines
615-645).  Slot 0 of the per-thread iterator table and of the per-thread
memsteps table holds the caller's originals; slots 1 .. nthreads-1 are
clones.  Whether a clone attempt succeeds is abstracted by the oracles
`iterOk` and `memOk` (a `NpyIter_Copy` / `PyMem_New` returning NULL). -/

/-- First thread slot in 1 .. nthreads-1 whose clone attempt fails. -/
def firstFailGo (ok : Nat → Bool) : Nat → Nat → Option Nat
  | _, 0 => none
  | i, fuel + 1 => if ok i then firstFailGo ok (i + 1) fuel else some i

/-- First failing clone slot for a given thread count. -/
def firstFail (ok : Nat → Bool) (nthreads : Nat) : Option Nat :=
  firstFailGo ok 1 (nthreads - 1)

/-- The rollback release order of the C loops `--i; for (; i > 0; --i)`:
slots i-1 down to 1. -/
def rollbackList (i : Nat) : List Nat :=
  (List.range' 1 (i - 1)).reverse

/-- Outcome of the setup phase: return code, iterator slots passed to
`NpyIter_Deallocate` during rollback (in order), memsteps slots passed to
`PyMem_Del` during rollback (in order), and whether the parallel section
(the barrier-guarded worker run) was reached. -/
structure SetupOutcome where
  ret : Int
  releasedIters : List Nat
  releasedMems : List Nat
  parallelWorkStarted : Bool
  deriving DecidableEq, Repr

/-- The clone-setup phase of `vm_engine_iter_parallel` (lines 615-645):
copy the iterator for each additional thread, rolling back the iterator
clones made so far on failure; then allocate a memsteps copy for each
additional thread, rolling back the memsteps clones made so far and
deallocating iterator slots 0 .. nthreads-1 on failure.  On success the
parallel section runs (the post-completion cleanup of lines 673-677 is
not a rollback and is not recorded here). -/
def vm_engine_iter_parallel_setup (nthreads : Nat) (iterOk memOk : Nat → Bool) :
    SetupOutcome :=
  match firstFail iterOk nthreads with
  | some i => ⟨-1, rollbackList i, [], false⟩
  | none =>
    match firstFail memOk nthreads with
    | some i => ⟨-1, List.range nthreads, rollbackList i, false⟩
    | none => ⟨0, [], [], true⟩

/-- C2 (counterexample): with 2 threads, a successful iterator copy and a
failing memsteps allocation, the rollback deallocates iterator slots
0 and 1 — including the caller-owned original in slot 0 — refuting the
claim that only the clones created so far are released. -/
theorem parallel_setup_releases_callers_iterator :
    vm_engine_iter_parallel_setup 2 (fun _ => true) (fun _ => false) =
      ⟨-1, [0, 1], [], false⟩ ∧
    (0 : Nat) ∈ (vm_engine_iter_parallel_setup 2 (fun _ => true) (fun _ => false)).releasedIters := by
  constructor
  · rfl
  · rw [show (vm_engine_iter_parallel_setup 2 (fun _ => true) (fun _ => false)).releasedIters
        = [0, 1] from rfl]
    simp

lemma firstFailGo_spec (ok : Nat → Bool) :
    ∀ fuel lo i, firstFailGo ok lo fuel = some i →
      ok i = false ∧ lo ≤ i ∧ i < lo + fuel ∧ ∀ j, lo ≤ j → j < i → ok j = true := by
  intro fuel
  induction fuel with
  | zero => intro lo i h; exact absurd h (by rw [firstFailGo]; exact Option.noConfusion)
  | succ n ih =>
    intro lo i h
    rw [firstFailGo] at h
    by_cases hok : ok lo
    · rw [if_pos hok] at h
      obtain ⟨h1, h2, h3, h4⟩ := ih (lo + 1) i h
      refine ⟨h1, by omega, by omega, ?_⟩
      intro j hj1 hj2
      by_cases hj : j = lo
      · rw [hj]; exact hok
      · exact h4 j (by omega) hj2
    · rw [if_neg hok] at h
      injection h with h
      subst h
      exact ⟨by simpa using hok, by omega, by omega, fun j hj1 hj2 => by omega⟩

lemma rollbackList_mem (i j : Nat) : j ∈ rollbackList i ↔ 1 ≤ j ∧ j < i := by
  unfold rollbackList
  rw [List.mem_reverse, List.mem_range'_1]
  omega

/-- C2 (amended): on iterator-copy failure at slot `i`,
`vm_engine_iter_parallel` releases exactly the iterator clones created so
far (slots 1 .. i-1, slot 0 and all memsteps untouched) and returns -1
without starting parallel work.  On memsteps-allocation failure at slot
`i`, it releases the memsteps clones created so far (slots 1 .. i-1,
slot-0 memsteps untouched) but deallocates every iterator slot
0 .. nthreads-1 — including the caller-owned iterator in slot 0 — and
returns -1 without starting parallel work. -/
theorem parallel_setup_rollback_characterization :
    ∀ (nthreads : Nat) (iterOk memOk : Nat → Bool),
      (∀ i, firstFail iterOk nthreads = some i →
        vm_engine_iter_parallel_setup nthreads iterOk memOk =
          ⟨-1, rollbackList i, [], false⟩ ∧
        (∀ j, j ∈ rollbackList i ↔ 1 ≤ j ∧ j < i) ∧
        0 ∉ rollbackList i) ∧
      (∀ i, firstFail iterOk nthreads = none → firstFail memOk nthreads = some i →
        vm_engine_iter_parallel_setup nthreads iterOk memOk =
          ⟨-1, List.range nthreads, rollbackList i, false⟩ ∧
        (∀ j, j ∈ rollbackList i ↔ 1 ≤ j ∧ j < i) ∧
        0 ∉ rollbackList i ∧
        (1 ≤ nthreads → 0 ∈ List.range nthreads)) ∧
      (firstFail iterOk nthreads = none → firstFail memOk nthreads = none →
        vm_engine_iter_parallel_setup nthreads iterOk memOk = ⟨0, [], [], true⟩) := by
  intro nthreads iterOk memOk
  refine ⟨?_, ?_, ?_⟩
  · intro i hi
    refine ⟨?_, fun j => rollbackList_mem i j, ?_⟩
    · unfold vm_engine_iter_parallel_setup
      rw [hi]
    · rw [rollbackList_mem]
      omega
  · intro i hni hi
    refine ⟨?_, fun j => rollbackList_mem i j, ?_, ?_⟩
    · unfold vm_engine_iter_parallel_setup
      rw [hni, hi]
    · rw [rollbackList_mem]
      omega
    · intro h
      rw [List.mem_range]
      omega
  · intro hni hnm
    unfold vm_engine_iter_parallel_setup
    rw [hni, hnm]

/-- C2 (witness): 3 threads with the iterator copy failing at slot 2
releases exactly the clone in slot 1 and returns -1 with no parallel
work. -/
theorem parallel_setup_rollback_characterization_witness :
    vm_engine_iter_parallel_setup 3 (fun i => decide (i ≠ 2)) (fun _ => true) =
      ⟨-1, rollbackList 2, [], false⟩ ∧
    (0 : Nat) ∉ rollbackList 2 :=
  ⟨((parallel_setup_rollback_characterization 3 (fun i => decide (i ≠ 2))
      (fun _ => true)).1 2 rfl).1,
   ((parallel_setup_rollback_characterization 3 (fun i => decide (i ≠ 2))
      (fun _ => true)).1 2 rfl).2.2⟩

/-! ### C1: parallel/serial equivalence

The iteration-space geometry of `vm_engine_iter_parallel` (interpreter.cpp
lines 600-608) and the block loop of `vm_engine_iter_task` (lines
494-538).  A non-reduction program is element-wise: the output at index
`i` depends only on the inputs at index `i` (the spec's cross-block
independence: temporaries and strides are block-local and per-thread), so
one evaluation is a function `f : Nat → Int` from iteration index to
output element.  The per-thread worker loop itself lives in `module.cpp`,
which is not under `src/`; modelled from the spec, the workers carve the
iterator index range `[start, vlen)` into consecutive ranges of
`th_params.block_size` indices and each runs the sequential driver on its
own range, in an arbitrary order. -/

/-- Modelled from the spec: `BLOCK_SIZE1`, the fast-path block size, is a
compile-time tuned constant defined in `numexpr_config.hpp` (not under
`src/`), around 128-256 elements; fixed here at 256. -/
def BLOCK_SIZE1 : Nat := 256

/-- The task factor of `vm_engine_iter_parallel` (line 605): each thread
should get roughly 16 tasks. -/
def taskfactor (nthreads : Nat) : Nat := 16 * BLOCK_SIZE1 * nthreads

/-- `th_params.block_size` (lines 606-608): the number of blocks per task
rounded up, times the block size. -/
def par_block_size (start vlen nthreads : Nat) : Nat :=
  (vlen - start + taskfactor nthreads - 1) / taskfactor nthreads * BLOCK_SIZE1

/-- Modelled from the spec: the number of tasks of size `bs` the workers
consume to cover `[start, vlen)` (the worker loop is in `module.cpp`, not
under `src/`). -/
def numChunks (start vlen bs : Nat) : Nat := (vlen - start + bs - 1) / bs

/-- Modelled from the spec: the static task partition of the iterator
index range the workers realize (worker loop in `module.cpp`, not under
`src/`): task `k` covers `[start + k * bs, min (start + (k+1) * bs) vlen)`
with `bs` the `th_params.block_size` of interpreter.cpp lines 606-608. -/
def parChunks (start vlen nthreads : Nat) : List (Nat × Nat) :=
  let bs := par_block_size start vlen nthreads
  (List.range (numChunks start vlen bs)).map
    (fun k => (start + k * bs, min (start + (k + 1) * bs) vlen))

/-- Write the outputs of one interpreter block over `[s, e)` into the
output array. -/
def applyBlock (f : Nat → Int) (s e : Nat) (out : Nat → Int) : Nat → Int :=
  fun i => if s ≤ i ∧ i < e then f i else out i

/-- The block loop of `vm_engine_iter_task`: fixed-size `BLOCK_SIZE1`
blocks while they fit, then one final partial block. -/
def vm_taskGo (f : Nat → Int) : Nat → Nat → (Nat → Int) → Nat → Nat → Int
  | _, _, out, 0 => out
  | s, e, out, fuel + 1 =>
    if e ≤ s then out
    else if s + BLOCK_SIZE1 ≤ e then
      vm_taskGo f (s + BLOCK_SIZE1) e (applyBlock f s (s + BLOCK_SIZE1) out) fuel
    else applyBlock f s e out

/-- The sequential driver `vm_engine_iter_task` over the index range
`[s, e)`. -/
def vm_task (f : Nat → Int) (s e : Nat) (out : Nat → Int) : Nat → Int :=
  vm_taskGo f s e out ((e - s) / BLOCK_SIZE1 + 1)

/-- The parallel engine: every task range is processed by the sequential
driver, in the order given by `chunks` (one interleaving of the worker
threads). -/
def vm_parallel (f : Nat → Int) (out : Nat → Int) (chunks : List (Nat × Nat)) :
    Nat → Int :=
  chunks.foldl (fun o c => vm_task f c.1 c.2 o) out

lemma vm_taskGo_spec (f : Nat → Int) (e : Nat) :
    ∀ fuel s out i, e ≤ s + fuel * BLOCK_SIZE1 →
      vm_taskGo f s e out fuel i = if s ≤ i ∧ i < e then f i else out i := by
  intro fuel
  induction fuel with
  | zero =>
    intro s out i h
    rw [vm_taskGo, if_neg (by omega)]
  | succ n ih =>
    intro s out i h
    rw [vm_taskGo]
    by_cases h1 : e ≤ s
    · rw [if_pos h1, if_neg (by omega)]
    · rw [if_neg h1]
      by_cases h2 : s + BLOCK_SIZE1 ≤ e
      · rw [if_pos h2, ih (s + BLOCK_SIZE1) (applyBlock f s (s + BLOCK_SIZE1) out) i
          (by simp only [Nat.succ_mul] at h; omega)]
        unfold applyBlock
        have hB : 0 < BLOCK_SIZE1 := by simp [BLOCK_SIZE1]
        split_ifs <;> first | rfl | omega
      · rw [if_neg h2]
        rfl

lemma vm_task_spec (f : Nat → Int) (s e : Nat) (out : Nat → Int) (i : Nat) :
    vm_task f s e out i = if s ≤ i ∧ i < e then f i else out i := by
  unfold vm_task
  apply vm_taskGo_spec
  simp only [BLOCK_SIZE1]
  omega

lemma vm_parallel_spec (f : Nat → Int) :
    ∀ (chunks : List (Nat × Nat)) (out : Nat → Int) (i : Nat),
      vm_parallel f out chunks i =
        if ∃ c ∈ chunks, c.1 ≤ i ∧ i < c.2 then f i else out i := by
  intro chunks
  induction chunks with
  | nil =>
    intro out i
    simp [vm_parallel]
  | cons c cs ih =>
    intro out i
    unfold vm_parallel
    rw [List.foldl_cons]
    have := ih (vm_task f c.1 c.2 out) i
    unfold vm_parallel at this
    rw [this, vm_task_spec]
    by_cases h1 : ∃ c' ∈ cs, c'.1 ≤ i ∧ i < c'.2
    · rw [if_pos h1, if_pos (by simp only [List.exists_mem_cons_iff]; right; exact h1)]
    · rw [if_neg h1]
      by_cases h2 : c.1 ≤ i ∧ i < c.2
      · rw [if_pos h2, if_pos (by simp only [List.exists_mem_cons_iff]; left; exact h2)]
      · have hno : ¬ ∃ c' ∈ c :: cs, c'.1 ≤ i ∧ i < c'.2 := by
          intro hcon
          rcases (List.exists_mem_cons_iff _ _ _).1 hcon with hh | hh
          · exact h2 hh
          · exact h1 hh
        rw [if_neg h2, if_neg hno]

lemma ceil_mul_ge (n bs : Nat) (hbs : 0 < bs) : n ≤ (n + bs - 1) / bs * bs := by
  have h1 : bs * ((n + bs - 1) / bs) + (n + bs - 1) % bs = n + bs - 1 :=
    Nat.div_add_mod (n + bs - 1) bs
  have h2 : (n + bs - 1) % bs < bs := Nat.mod_lt _ hbs
  have h3 : (n + bs - 1) / bs * bs = bs * ((n + bs - 1) / bs) := Nat.mul_comm _ _
  omega

lemma parChunks_cover (start vlen nthreads : Nat) (hn : 1 ≤ nthreads) (i : Nat) :
    (∃ c ∈ parChunks start vlen nthreads, c.1 ≤ i ∧ i < c.2) ↔
      start ≤ i ∧ i < vlen := by
  unfold parChunks
  constructor
  · rintro ⟨c, hc, hc1, hc2⟩
    simp only [List.mem_map, List.mem_range] at hc
    obtain ⟨k, _, hk⟩ := hc
    rw [← hk] at hc1 hc2
    simp only at hc1 hc2
    omega
  · rintro ⟨h1, h2⟩
    set bs := par_block_size start vlen nthreads with hbs
    have h3 : 0 < taskfactor nthreads := by
      simp only [taskfactor, BLOCK_SIZE1]
      omega
    have hbspos : 0 < bs := by
      have h4 : 1 ≤ (vlen - start + taskfactor nthreads - 1) / taskfactor nthreads := by
        rw [Nat.le_div_iff_mul_le h3]
        omega
      have hb2 : bs = (vlen - start + taskfactor nthreads - 1) / taskfactor nthreads * 256 := by
        rw [hbs]
        simp only [par_block_size, BLOCK_SIZE1]
      omega
    refine ⟨(start + (i - start) / bs * bs, min (start + ((i - start) / bs + 1) * bs) vlen),
      ?_, ?_, ?_⟩
    · simp only [List.mem_map, List.mem_range]
      refine ⟨(i - start) / bs, ?_, rfl⟩
      unfold numChunks
      by_contra hcon
      push_neg at hcon
      have h5 : (vlen - start) ≤ (vlen - start + bs - 1) / bs * bs := ceil_mul_ge _ _ hbspos
      have h6 : (i - start) / bs * bs ≤ i - start := Nat.div_mul_le_self _ _
      have h7 : (vlen - start + bs - 1) / bs * bs ≤ (i - start) / bs * bs :=
        Nat.mul_le_mul_right _ hcon
      omega
    · show start + (i - start) / bs * bs ≤ i
      have h6 : (i - start) / bs * bs ≤ i - start := Nat.div_mul_le_self _ _
      omega
    · show i < min (start + ((i - start) / bs + 1) * bs) vlen
      have h8 : bs * ((i - start) / bs) + (i - start) % bs = i - start :=
        Nat.div_add_mod (i - start) bs
      have h9 : (i - start) % bs < bs := Nat.mod_lt _ hbspos
      have h10 : ((i - start) / bs + 1) * bs = bs * ((i - start) / bs) + bs := by ring
      omega

/-- C1: for a non-reduction (element-wise) program, running the
sequential driver over the task ranges that `vm_engine_iter_parallel`
partitions the iterator index range into — in any interleaving order of
the worker threads — writes the same output array as one sequential
driver pass over the whole range. -/
theorem parallel_serial_equivalence :
    ∀ (f : Nat → Int) (out : Nat → Int) (start vlen nthreads : Nat)
      (cs : List (Nat × Nat)),
      1 ≤ nthreads → cs.Perm (parChunks start vlen nthreads) →
      ∀ i, vm_parallel f out cs i = vm_task f start vlen out i := by
  intro f out start vlen nthreads cs hn hperm i
  rw [vm_parallel_spec, vm_task_spec]
  by_cases h : start ≤ i ∧ i < vlen
  · rw [if_pos h, if_pos ?_]
    have := (parChunks_cover start vlen nthreads hn i).2 h
    obtain ⟨c, hc, hci⟩ := this
    exact ⟨c, hperm.mem_iff.2 hc, hci⟩
  · rw [if_neg h, if_neg ?_]
    intro hcon
    obtain ⟨c, hc, hci⟩ := hcon
    exact h ((parChunks_cover start vlen nthreads hn i).1 ⟨c, hperm.mem_iff.1 hc, hci⟩)

/-- C1 (witness): 600 iteration indices, 2 threads, tasks processed in
reversed order, compared with the serial pass at index 300. -/
theorem parallel_serial_equivalence_witness :
    vm_parallel (fun i => (i : Int)) (fun _ => 0) (parChunks 0 600 2).reverse 300 =
      vm_task (fun i => (i : Int)) 0 600 (fun _ => 0) 300 :=
  parallel_serial_equivalence (fun i => (i : Int)) (fun _ => 0) 0 600 2
    (parChunks 0 600 2).reverse (by decide) (List.reverse_perm _) 300

/-! ### The control flow of `NumExpr_run`

A model of the evaluation-controlling slice of `NumExpr_run`
(interpreter.cpp lines 844-1342) and `run_interpreter` (lines 682-800):
reduction detection and setup, the zero-size input short-circuit, the
all-constant fast path, the reduction-identity output fill, the
force-serial decisions and the engine dispatch, in source order.  Host
array-API concerns (dtype conversion, writeability, aliasing detection,
alignment) are elided: they cannot fail in the model.  The iterator's
total size (`NpyIter_GetIterSize`, a service external to this core) is a
parameter. -/

/-- `last_opcode` (interpreter.cpp lines 289-295): the opcode byte of the
final 4-byte slot. -/
def last_opcode (program : List Nat) : Nat :=
  program.getD (program.length - 4) 0

/-- The loop of `get_return_sig` (lines 249-270): walk 4-byte slots from
the end, skipping no-ops; result is the return type code of the last real
opcode, or 88 (the char X) on failure. -/
def grsGo (program : List Nat) : Nat → Nat → Nat
  | _, 0 => 88
  | e, fuel + 1 =>
    if e < 4 then 88
    else
      let op := program.getD (e - 4) 0
      if op = OP_NOOP then grsGo program (e - 4) fuel
      else
        let s := op_signature op 0
        if s ≤ 0 then 88 else s.toNat

/-- `get_return_sig`: the program's return type code. -/
def get_return_sig (program : List Nat) : Nat :=
  grsGo program program.length (program.length / 4 + 1)

/-- Modelled from the spec: `NPY_MAXARGS`, the host array library's
operand-count bound, from headers not under `src/`. -/
def NPY_MAXARGS : Nat := 32

/-- The broadcast dimension count (lines 975-980): maximum input
dimensionality.  Each input is its dimension list. -/
def oaMax (inputs : List (List Nat)) : Nat :=
  inputs.foldl (fun m dims => max m dims.length) 0

/-- The `reduction_size` scan of lines 986-1013: over all inputs whose
right-aligned dimensions reach the reduction axis, the maximum extent of
the axis dimension, starting from 1. -/
def computeReductionSize (inputs : List (List Nat)) (oa : Nat) (axis : Int) : Nat :=
  inputs.foldl
    (fun acc dims =>
      if (oa : Int) - dims.length ≤ axis then
        max acc (dims.getD (axis - ((oa : Int) - dims.length)).toNat 1)
      else acc) 1

/-- The `oa_ndim` value after the decrement of line 1015: it stays at its
initialization 0 (line 864) for non-reduction programs, whose evaluation
never enters the `is_reduction` block of lines 966-1048, and when the
axis sentinel 255 leaves the block of lines 973-1022 unentered. -/
def reduction_oa_ndim (program : List Nat) (inputs : List (List Nat)) : Nat :=
  if OP_REDUCTION < last_opcode program ∧ get_reduction_axis program ≠ 255 then
    oaMax inputs - 1
  else 0

/-- The final `reduction_size`: it stays at its initialization 1 (line
856) for non-reduction programs, for the 255 sentinel (scan never
entered), and when lines 1019-1021 reset it because the non-reduced
dimensionality is 0. -/
def reductionSizeFinal (program : List Nat) (inputs : List (List Nat)) : Nat :=
  if OP_REDUCTION < last_opcode program ∧ get_reduction_axis program ≠ 255 ∧
      reduction_oa_ndim program inputs ≠ 0 then
    computeReductionSize inputs (oaMax inputs) (get_reduction_axis program)
  else 1

/-- The reduction-identity fill of lines 1260-1273: 0 for a final opcode
in `[OP_SUM, OP_PROD)`, 1 otherwise. -/
def fill_value (program : List Nat) : Nat :=
  if OP_SUM ≤ last_opcode program ∧ last_opcode program < OP_PROD then 0 else 1

/-- Error exits of the modelled `NumExpr_run` slice. -/
inductive RunModelError where
  | inputCountMismatch
  | tooManyInputs
  | reductionAxisOutOfBounds
  | fullReductionOutSizeNot1
  | constOutSizeNot1
  deriving DecidableEq, Repr

/-- The execution engine `run_interpreter` hands the evaluation to. -/
inductive EngineChoice where
  | serialTask
  | serialOuterReduce
  | serialInnerReduce
  | parallel
  | parallelReductionRefused
  deriving DecidableEq, Repr

/-- Outcome of the modelled `NumExpr_run` slice. -/
inductive RunResult where
  | error (e : RunModelError)
  | zeroShortCircuit (dims : List Nat) (retsig : Nat)
  | constFastPath (retsig : Nat)
  | evaluated (fill : Option Nat) (engine : EngineChoice)
  deriving DecidableEq, Repr

/-- Whether an outcome reached the interpreter-dispatch phase. -/
def isEvaluated : RunResult → Bool
  | .evaluated _ _ => true
  | _ => false

/-- Whether an outcome is the zero-size input short-circuit. -/
def isZeroShortCircuit : RunResult → Bool
  | .zeroShortCircuit _ _ => true
  | _ => false

/-- The engine dispatch of `run_interpreter` (lines 711-793): one serial
task when a single thread is configured or serial execution is forced
(with the reduction loop order chosen by `reduction_outer_loop`),
otherwise the parallel engine — which refuses a nested reduction
iterator with the runtime error "Parallel engine does not support
reduction yet" before any execution. -/
def run_interpreter_dispatch (nthreads : Nat) (force_serial reduceIter outerLoop : Bool) :
    EngineChoice :=
  if nthreads = 1 ∨ force_serial then
    if reduceIter then
      if outerLoop then .serialOuterReduce else .serialInnerReduce
    else .serialTask
  else
    if reduceIter then .parallelReductionRefused else .parallel

/-- The evaluation-controlling slice of `NumExpr_run`, in source order:
input-count check (lines 880-888), reduction-axis validation (lines
966-1022), full-reduction output-size check (lines 1024-1036), zero-size
input short-circuit (lines 1080-1108), all-constant fast path (lines
1112-1151), reduction-identity fill (lines 1260-1273), force-serial
decisions (lines 1281-1289) and dispatch (lines 711-793). -/
def numExprRunModel (program signature : List Nat) (inputs : List (List Nat))
    (outSize : Option Nat) (nthreads iterSize : Nat) : RunResult :=
  if signature.length ≠ inputs.length then .error .inputCountMismatch
  else if NPY_MAXARGS < inputs.length + 1 then .error .tooManyInputs
  else if OP_REDUCTION < last_opcode program ∧ get_reduction_axis program ≠ 255 ∧
      (get_reduction_axis program < 0 ∨ (oaMax inputs : Int) ≤ get_reduction_axis program) then
    .error .reductionAxisOutOfBounds
  else if OP_REDUCTION < last_opcode program ∧ reduction_oa_ndim program inputs = 0 ∧
      outSize.getD 1 ≠ 1 then
    .error .fullReductionOutSizeNot1
  else if inputs.length ≠ 0 ∧ inputs.any (fun dims => dims.prod == 0) then
    .zeroShortCircuit ((inputs.find? (fun dims => dims.prod == 0)).getD [])
      (get_return_sig program)
  else if inputs.length = 0 then
    if outSize.getD 1 ≠ 1 then .error .constOutSizeNot1
    else .constFastPath (get_return_sig program)
  else
    .evaluated
      (if OP_REDUCTION < last_opcode program then some (fill_value program) else none)
      (run_interpreter_dispatch nthreads
        (decide (iterSize < 2 * BLOCK_SIZE1) ||
          decide (OP_REDUCTION < last_opcode program))
        (decide (reductionSizeFinal program inputs ≠ 1))
        (decide (reductionSizeFinal program inputs < 64)))

/-! ### C9: the parallel engine requires a large, non-reduction evaluation -/

lemma dispatch_parallel_force_serial_false (nthreads : Nat) (fs ri ol : Bool)
    (h : run_interpreter_dispatch nthreads fs ri ol = .parallel) : fs = false := by
  unfold run_interpreter_dispatch at h
  by_cases h1 : nthreads = 1 ∨ fs = true
  · rw [if_pos h1] at h
    by_cases h2 : ri = true
    · rw [if_pos h2] at h
      by_cases h3 : ol = true
      · rw [if_pos h3] at h; exact EngineChoice.noConfusion h
      · rw [if_neg h3] at h; exact EngineChoice.noConfusion h
    · rw [if_neg h2] at h; exact EngineChoice.noConfusion h
  · cases fs with
    | false => rfl
    | true => exact absurd (Or.inr rfl) h1

/-- C9: whenever the modelled `NumExpr_run` dispatches to the parallel
engine, the program is not a reduction and the iterator size is at least
twice the fast-path block size (both cases force serial execution before
dispatch); and an evaluation with a nested reduction iterator that
reaches the parallel branch of `run_interpreter` is refused without
execution. -/
theorem parallel_requires_large_nonreduction :
    (∀ (program signature : List Nat) (inputs : List (List Nat)) (outSize : Option Nat)
      (nthreads iterSize : Nat) (fill : Option Nat),
      numExprRunModel program signature inputs outSize nthreads iterSize =
        .evaluated fill .parallel →
      ¬ OP_REDUCTION < last_opcode program ∧ 2 * BLOCK_SIZE1 ≤ iterSize) ∧
    (∀ (nthreads : Nat) (outerLoop : Bool), nthreads ≠ 1 →
      run_interpreter_dispatch nthreads false true outerLoop = .parallelReductionRefused) := by
  constructor
  · intro program signature inputs outSize nthreads iterSize fill h
    unfold numExprRunModel at h
    split_ifs at h
    all_goals
      (injection h with hfill heng;
       have hfs := dispatch_parallel_force_serial_false _ _ _ _ heng;
       simp only [Bool.or_eq_false_iff, decide_eq_false_iff_not] at hfs;
       exact ⟨hfs.2, by omega⟩)
  · intro nthreads outerLoop h
    unfold run_interpreter_dispatch
    rw [if_neg (by simp [h]), if_pos rfl]

/-- C9 (witness): a 600-element non-reduction evaluation on 2 threads
dispatches to the parallel engine, so the theorem yields its size and
non-reduction facts; the dispatch of a nested-reduction evaluation on 2
unforced threads is the refusal. -/
theorem parallel_requires_large_nonreduction_witness :
    (¬ OP_REDUCTION < last_opcode [1, 0, 1, 2] ∧ 2 * BLOCK_SIZE1 ≤ 600) ∧
    run_interpreter_dispatch 2 false true false = .parallelReductionRefused :=
  ⟨parallel_requires_large_nonreduction.1 [1, 0, 1, 2] [tD] [[600]] none 2 600 none rfl,
   parallel_requires_large_nonreduction.2 2 false (by decide)⟩

/-! ### C10: the zero-size input short-circuit -/

/-- C10 (counterexample): a reduction program with out-of-bounds axis
byte 3 over a single zero-size 1-d input fails the reduction-axis check,
which precedes the zero-size check: no fresh output is returned, refuting
the claim that any zero-size input short-circuits evaluation. -/
theorem zero_size_after_axis_error :
    numExprRunModel [9, 0, 1, 3] [tD] [[0]] none 1 0 = .error .reductionAxisOutOfBounds ∧
    ([[0]] : List (List Nat)).any (fun dims => dims.prod == 0) = true ∧
    isZeroShortCircuit (numExprRunModel [9, 0, 1, 3] [tD] [[0]] none 1 0) = false :=
  ⟨rfl, rfl, rfl⟩

/-- C10 (amended): provided the call passes the checks that precede the
zero-size scan — input count matching the signature, operand bound,
reduction-axis bounds, full-reduction output size — an input with zero
elements short-circuits evaluation: the result is a fresh output shaped
like the first zero-size input with the program's return type, the
interpreter is never dispatched, and no program-execution error can be
reported. -/
theorem zero_size_short_circuit :
    ∀ (program signature : List Nat) (inputs : List (List Nat)) (outSize : Option Nat)
      (nthreads iterSize : Nat),
      signature.length = inputs.length →
      inputs.length + 1 ≤ NPY_MAXARGS →
      ¬(OP_REDUCTION < last_opcode program ∧ get_reduction_axis program ≠ 255 ∧
        (get_reduction_axis program < 0 ∨ (oaMax inputs : Int) ≤ get_reduction_axis program)) →
      ¬(OP_REDUCTION < last_opcode program ∧ reduction_oa_ndim program inputs = 0 ∧
        outSize.getD 1 ≠ 1) →
      inputs.length ≠ 0 →
      inputs.any (fun dims => dims.prod == 0) = true →
      numExprRunModel program signature inputs outSize nthreads iterSize =
        .zeroShortCircuit ((inputs.find? (fun dims => dims.prod == 0)).getD [])
          (get_return_sig program) := by
  intro program signature inputs outSize nthreads iterSize h1 h2 h3 h4 h5 h6
  unfold numExprRunModel
  rw [if_neg (fun hc => hc h1), if_neg (by omega), if_neg h3, if_neg h4,
    if_pos ⟨h5, h6⟩]

/-- C10 (witness): a non-reduction program over one 0-by-3 input
short-circuits to the empty output of shape (0, 3) with the double
return type. -/
theorem zero_size_short_circuit_witness :
    numExprRunModel [1, 0, 1, 2] [tD] [[0, 3]] none 2 0 =
      .zeroShortCircuit [0, 3] tD :=
  zero_size_short_circuit [1, 0, 1, 2] [tD] [[0, 3]] none 2 0 rfl (by decide)
    (by decide) (by decide) (by decide) rfl

/-! ### C5: the reduction-identity fill -/

/-- The spec's reduction accumulation for the sum family: add each
element into the running output value. -/
def accumulate_sum (init : Int) (xs : List Int) : Int :=
  xs.foldl (fun a x => a + x) init

/-- The spec's reduction accumulation for the product family: multiply
each element into the running output value. -/
def accumulate_prod (init : Int) (xs : List Int) : Int :=
  xs.foldl (fun a x => a * x) init

/-- C5 (counterexample): a sum-reduction (axis sentinel 255) over a
single zero-element input short-circuits to an empty output array before
the identity fill or any evaluation, so it does not return the scalar 0
the claim derives. -/
theorem sum_reduction_zero_elements_short_circuits :
    numExprRunModel [9, 0, 1, 255] [tD] [[0]] none 1 0 = .zeroShortCircuit [0] tD ∧
    isEvaluated (numExprRunModel [9, 0, 1, 255] [tD] [[0]] none 1 0) = false :=
  ⟨rfl, rfl⟩

/-- C5 (amended): every reduction evaluation that reaches the dispatch
phase carries the identity fill — 0 when the final opcode lies in the sum
family `[OP_SUM, OP_PROD)`, 1 otherwise (in particular for product) —
applied to the output before the first block, and accumulating zero
elements from those identities yields 0 for sum and 1 for product; but a
reduction whose input has zero elements never reaches the fill: it
short-circuits to an empty output array (see the counterexample). -/
theorem reduction_identity_fill :
    (∀ (program signature : List Nat) (inputs : List (List Nat)) (outSize : Option Nat)
      (nthreads iterSize : Nat) (fill : Option Nat) (eng : EngineChoice),
      numExprRunModel program signature inputs outSize nthreads iterSize =
        .evaluated fill eng →
      OP_REDUCTION < last_opcode program →
      fill = some (if OP_SUM ≤ last_opcode program ∧ last_opcode program < OP_PROD
        then 0 else 1)) ∧
    accumulate_sum 0 [] = 0 ∧ accumulate_prod 1 [] = 1 := by
  refine ⟨?_, rfl, rfl⟩
  intro program signature inputs outSize nthreads iterSize fill eng h hred
  unfold numExprRunModel at h
  split_ifs at h
  all_goals first
    | exact absurd hred (by assumption)
    | (injection h with hfill heng; rw [← hfill]; unfold fill_value; rfl)

/-- C5 (witness): a full sum-reduction over a 5-element input reaches
dispatch with fill 0. -/
theorem reduction_identity_fill_witness :
    (some 0 : Option Nat) =
      some (if OP_SUM ≤ last_opcode [9, 0, 1, 255] ∧ last_opcode [9, 0, 1, 255] < OP_PROD
        then 0 else 1) :=
  reduction_identity_fill.1 [9, 0, 1, 255] [tD] [[5]] none 1 5 (some 0) .serialTask
    rfl (by decide)

end NumexprVM
